import Mathlib

/-!
Shallow embedding of the Nemo listing dashboard pipeline (src/app.py):
loader, normalizer (`load_and_preprocess_data`), filter mask, and the KPI
aggregation section.  Pandas cells are modelled by `Cell` (a number, a raw
string, or NaN/missing); a DataFrame is a `List Record` where each record
field is `Option Cell` (`none` = the key is absent in that record, so the
column exists only when some record carries it).  Machine floats are
modelled by `ℚ`.
-/

/-- A pandas cell: numeric value, raw string, or NaN (missing). -/
inductive Cell where
  | num (q : ℚ)
  | str (s : String)
  | nan
deriving DecidableEq, Repr

/-- Numeric value of a digit character. -/
def digToNat (c : Char) : Nat := c.toNat - 48

/-- Value of a digit string read in base 10. -/
def natOfDigits (l : List Char) : Nat := l.foldl (fun a c => a * 10 + digToNat c) 0

/-- Parse an unsigned decimal literal: digits with an optional single
decimal point (`"12"`, `"12.5"`, `"12."`, `".5"`). -/
def parseUnsigned (l : List Char) : Option ℚ :=
  let intPart := l.takeWhile Char.isDigit
  let rest := l.dropWhile Char.isDigit
  match rest with
  | [] => if intPart.isEmpty then none else some (natOfDigits intPart : ℚ)
  | '.' :: frac =>
      if frac.all Char.isDigit && (!intPart.isEmpty || !frac.isEmpty) then
        some ((natOfDigits intPart : ℚ) + (natOfDigits frac : ℚ) / ((10 : ℚ) ^ frac.length))
      else none
  | _ => none

/-- ASCII whitespace test. -/
def isSpaceCh (c : Char) : Bool := c == ' ' || c == '\t' || c == '\n' || c == '\r'

/-- Strip leading and trailing whitespace from a character list. -/
def trimChars (l : List Char) : List Char :=
  ((l.dropWhile isSpaceCh).reverse.dropWhile isSpaceCh).reverse

/-- Parse a decimal numeral with optional sign and surrounding whitespace,
modelling the string inputs accepted by `pd.to_numeric`. -/
def parseNumStr (s : String) : Option ℚ :=
  match trimChars s.toList with
  | '+' :: l => parseUnsigned l
  | '-' :: l => (parseUnsigned l).map Neg.neg
  | l => parseUnsigned l

/-- `pd.to_numeric(—, errors='coerce')` on one cell: numbers stay, strings
are parsed as decimals, anything unparseable becomes NaN. -/
def to_numeric (c : Cell) : Cell :=
  match c with
  | .num q => .num q
  | .nan => .nan
  | .str s =>
      match parseNumStr s with
      | some q => .num q
      | none => .nan

/-- A naive datetime (the fields `datetime.fromisoformat` yields; any
parsed UTC offset is validated then dropped, since `strftime` ignores it). -/
structure DT where
  year : Nat
  month : Nat
  day : Nat
  hour : Nat
  minute : Nat
  second : Nat
deriving DecidableEq, Repr

/-- Gregorian leap-year test. -/
def isLeap (y : Nat) : Bool := (y % 4 == 0 && y % 100 != 0) || y % 400 == 0

/-- Days in a month of the proleptic Gregorian calendar. -/
def daysInMonth (y m : Nat) : Nat :=
  if m == 2 then (if isLeap y then 29 else 28)
  else if m == 4 || m == 6 || m == 9 || m == 11 then 30
  else 31

/-- Read exactly two digits. -/
def d2 (l : List Char) : Option (Nat × List Char) :=
  match l with
  | a :: b :: rest =>
      if a.isDigit && b.isDigit then some (digToNat a * 10 + digToNat b, rest) else none
  | _ => none

/-- Read exactly four digits. -/
def d4 (l : List Char) : Option (Nat × List Char) :=
  match l with
  | a :: b :: c :: d :: rest =>
      if a.isDigit && b.isDigit && c.isDigit && d.isDigit then
        some (((digToNat a * 10 + digToNat b) * 10 + digToNat c) * 10 + digToNat d, rest)
      else none
  | _ => none

/-- Consume one expected character. -/
def expectCh (c : Char) (l : List Char) : Option (List Char) :=
  match l with
  | a :: r => if a == c then some r else none
  | [] => none

/-- Validate an optional trailing `±HH:MM` UTC offset (the offset is
discarded: `strftime` formats the naive fields only). -/
def parseOffsetEnd (l : List Char) : Bool :=
  match l with
  | [] => true
  | s :: rest =>
      (s == '+' || s == '-') &&
      (match d2 rest with
       | some (oh, r1) =>
           (match expectCh ':' r1 with
            | some r2 =>
                (match d2 r2 with
                 | some (om, r3) => r3.isEmpty && oh < 24 && om < 60
                 | none => false)
            | none => false)
       | none => false)

/-- `datetime.fromisoformat` on `YYYY-MM-DD[ T HH:MM[:SS]][±HH:MM]`
(fractional seconds are not modelled: they fail the parse and the original
string passes through `to_kst` unchanged). -/
def parseISO (s : String) : Option DT := do
  let (y, r1) ← d4 s.toList
  let r2 ← expectCh '-' r1
  let (mo, r3) ← d2 r2
  let r4 ← expectCh '-' r3
  let (da, r5) ← d2 r4
  let (h, mi, se) ←
    match r5 with
    | [] => some (0, 0, 0)
    | sep :: r6 =>
        if sep == 'T' || sep == ' ' then do
          let (h, r7) ← d2 r6
          let r8 ← expectCh ':' r7
          let (mi, r9) ← d2 r8
          let (se, rA) ←
            match r9 with
            | ':' :: rB =>
                match d2 rB with
                | some (se, rA) => some (se, rA)
                | none => none
            | _ => some (0, r9)
          if parseOffsetEnd rA then some (h, mi, se) else none
        else none
  if 1 ≤ y && 1 ≤ mo && mo ≤ 12 && 1 ≤ da && da ≤ daysInMonth y mo
     && h ≤ 23 && mi ≤ 59 && se ≤ 59 then
    some ⟨y, mo, da, h, mi, se⟩
  else none

/-- `dt + timedelta(hours=9)`: adds nine hours with at most one calendar
day of rollover. -/
def add9h (d : DT) : DT :=
  let h := d.hour + 9
  if h < 24 then { d with hour := h }
  else
    let h2 := h - 24
    if d.day < daysInMonth d.year d.month then { d with hour := h2, day := d.day + 1 }
    else if d.month < 12 then { d with hour := h2, day := 1, month := d.month + 1 }
    else { d with hour := h2, day := 1, month := 1, year := d.year + 1 }

/-- The decimal digit character for `n % 10`. -/
def digitCh (n : Nat) : Char := Char.ofNat (48 + n % 10)

/-- Zero-padded two-digit rendering (values are at most 59). -/
def pad2 (n : Nat) : List Char := [digitCh (n / 10), digitCh n]

/-- Zero-padded four-digit rendering (years are at most 9999). -/
def pad4 (n : Nat) : List Char := [digitCh (n / 1000), digitCh (n / 100), digitCh (n / 10), digitCh n]

/-- `strftime('%Y-%m-%d %H:%M:%S')`. -/
def fmtDT (d : DT) : String :=
  String.mk (pad4 d.year ++ ['-'] ++ pad2 d.month ++ ['-'] ++ pad2 d.day ++ [' '] ++
             pad2 d.hour ++ [':'] ++ pad2 d.minute ++ [':'] ++ pad2 d.second)

/-- `utc_str.replace('Z', '+00:00')`: the pattern is the single character
`Z`, so replacement is character-wise. -/
def replaceZ (l : List Char) : List Char :=
  l.flatMap (fun c => if c == 'Z' then ['+', '0', '0', ':', '0', '0'] else [c])

/-- `to_kst` from `load_and_preprocess_data`: non-strings pass through;
a string has every `Z` replaced by `+00:00`, is parsed as ISO-8601, shifted
by +9 hours and reformatted; an unparseable string passes through.  The
+9h shift past year 9999 overflows `datetime` in Python; the bare `except`
turns that into pass-through as well. -/
def to_kst (c : Cell) : Cell :=
  match c with
  | .str s =>
      match parseISO (String.mk (replaceZ s.toList)) with
      | some dt =>
          let k := add9h dt
          if k.year ≤ 9999 then .str (fmtDT k) else .str s
      | none => .str s
  | c => c


/-- One DataFrame row.  Each field is `Option Cell`: `none` means the key
is absent in this record, so the column exists only when some record of
the table carries the key (pandas builds the column set as the union of
the record keys; rows lacking a key of an existing column read as NaN). -/
@[ext]
structure Record where
  title : Option Cell := none
  businessMiddleCodeName : Option Cell := none
  monthlyRent : Option Cell := none
  deposit : Option Cell := none
  premium : Option Cell := none
  maintenanceFee : Option Cell := none
  size : Option Cell := none
  floor : Option Cell := none
  groundFloor : Option Cell := none
  viewCount : Option Cell := none
  favoriteCount : Option Cell := none
  nearSubwayStation : Option Cell := none
  previewPhotoUrl : Option Cell := none
  editedDateUtc : Option Cell := none
  edited_kst : Option Cell := none
  total_monthly_cost : Option Cell := none
  size_pyeong : Option Cell := none
deriving DecidableEq, Repr

/-- The effective cell a present column yields for a record: an absent key
reads as NaN. -/
def effc (o : Option Cell) : Cell := o.getD .nan

/-- Which columns the code consults with `in df.columns` (the nine
`numeric_cols` and `editedDateUtc`). -/
@[ext]
structure Pres where
  monthlyRent : Bool
  deposit : Bool
  premium : Bool
  maintenanceFee : Bool
  size : Bool
  floor : Bool
  groundFloor : Bool
  viewCount : Bool
  favoriteCount : Bool
  editedDateUtc : Bool
deriving DecidableEq, Repr

/-- A column is present when some record carries its key. -/
def colP (t : List Record) (f : Record → Option Cell) : Bool :=
  t.any fun r => (f r).isSome

/-- Column presence of the columns the normalizer checks. -/
def presenceOf (t : List Record) : Pres where
  monthlyRent := colP t (·.monthlyRent)
  deposit := colP t (·.deposit)
  premium := colP t (·.premium)
  maintenanceFee := colP t (·.maintenanceFee)
  size := colP t (·.size)
  floor := colP t (·.floor)
  groundFloor := colP t (·.groundFloor)
  viewCount := colP t (·.viewCount)
  favoriteCount := colP t (·.favoriteCount)
  editedDateUtc := colP t (·.editedDateUtc)

/-- `df[col] = pd.to_numeric(df[col], errors='coerce')` at one field:
only applied when the column is present, and then every row ends up with
an explicit (numeric or NaN) value. -/
def coerceField (b : Bool) (o : Option Cell) : Option Cell :=
  if b then some (to_numeric (effc o)) else o

/-- Step 1 of the normalizer: numeric coercion of the nine
`numeric_cols`, each guarded by `if col in df.columns`. -/
def coerceRow (p : Pres) (r : Record) : Record :=
  { r with
    monthlyRent := coerceField p.monthlyRent r.monthlyRent
    deposit := coerceField p.deposit r.deposit
    premium := coerceField p.premium r.premium
    maintenanceFee := coerceField p.maintenanceFee r.maintenanceFee
    size := coerceField p.size r.size
    floor := coerceField p.floor r.floor
    groundFloor := coerceField p.groundFloor r.groundFloor
    viewCount := coerceField p.viewCount r.viewCount
    favoriteCount := coerceField p.favoriteCount r.favoriteCount }

/-- Step 2: `df['edited_kst'] = df['editedDateUtc'].apply(to_kst)`, only
when the `editedDateUtc` column exists. -/
def kstRow (b : Bool) (r : Record) : Record :=
  if b then { r with edited_kst := some (to_kst (effc r.editedDateUtc)) } else r

/-- `fillna(0)` on one cell. -/
def fillna0 (c : Cell) : Cell :=
  match c with
  | .nan => .num 0
  | c => c

/-- Pandas series addition on two non-NaN-filled cells: numbers add,
strings concatenate, a mixed pair raises `TypeError` (`none`). -/
def cellAdd (a b : Cell) : Option Cell :=
  match a, b with
  | .num x, .num y => some (.num (x + y))
  | .str s, .str u => some (.str (s ++ u))
  | .nan, _ => some .nan
  | _, .nan => some .nan
  | _, _ => none

/-- Division of a cell by a positive constant: NaN stays NaN, a string
raises `TypeError` (`none`). -/
def cellDiv (c : Cell) (k : ℚ) : Option Cell :=
  match c with
  | .num q => some (.num (q / k))
  | .nan => some .nan
  | .str _ => none

/-- Step 3 at one row:
`df['total_monthly_cost'] = df['monthlyRent'].fillna(0) + df['maintenanceFee'].fillna(0)`. -/
def totalRow (r : Record) : Option Record :=
  (cellAdd (fillna0 (effc r.monthlyRent)) (fillna0 (effc r.maintenanceFee))).map
    (fun c => { r with total_monthly_cost := some c })

/-- The fixed unit-conversion constant 3.3058. -/
def pyeongConst : ℚ := 33058 / 10000

/-- Step 3 at one row: `df['size_pyeong'] = df['size'] / 3.3058`. -/
def pyRow (r : Record) : Option Record :=
  (cellDiv (effc r.size) pyeongConst).map
    (fun c => { r with size_pyeong := some c })

/-- Apply a columnwise pandas operation to every row, raising the given
error if it fails anywhere. -/
def mapExc (f : α → Option β) (e : String) : List α → Except String (List β)
  | [] => .ok []
  | a :: l =>
      match f a, mapExc f e l with
      | some b, .ok bs => .ok (b :: bs)
      | some _, .error m => .error m
      | none, _ => .error e

/-- The normalizer part of `load_and_preprocess_data` (src/app.py lines
48-71), applied to the parsed table.  Steps 1 and 2 are guarded by column
presence; step 3 reads `df['monthlyRent']`, `df['maintenanceFee']` and
`df['size']` unguarded, so an absent column there raises `KeyError`
(coercion preserves column presence, so the presence flags computed on the
input table are the ones these lookups see). -/
def preprocess (t : List Record) : Except String (List Record) :=
  let p := presenceOf t
  let t2 := (t.map (coerceRow p)).map (kstRow p.editedDateUtc)
  if p.monthlyRent = false then .error "KeyError: monthlyRent"
  else if p.maintenanceFee = false then .error "KeyError: maintenanceFee"
  else
    match mapExc totalRow "TypeError" t2 with
    | .error e => .error e
    | .ok t3 =>
        if p.size = false then .error "KeyError: size"
        else mapExc pyRow "TypeError" t3

/-- A parsed JSON source: a single object or an array of objects. -/
inductive RawData where
  | one (r : Record)
  | many (rs : List Record)
deriving Repr

/-- First candidate path that exists in the (pure) file-system model. -/
def findFile (fs : List (String × RawData)) : List String → Option RawData
  | [] => none
  | p :: ps =>
      match fs.lookup p with
      | some d => some d
      | none => findFile fs ps

/-- `load_and_preprocess_data` (src/app.py lines 22-71) over a pure
file-system model: try `filename` then `nemo/<filename>`; a missing file
yields the explicitly-empty table; a found JSON value is wrapped into a
table (one row for a single object) and normalized. -/
def load_and_preprocess_data (fs : List (String × RawData)) (filename : String) :
    Except String (List Record) :=
  match findFile fs [filename, "nemo/" ++ filename] with
  | none => .ok []
  | some (.one r) => preprocess [r]
  | some (.many rs) => preprocess rs

/-- `Series.between(lo, hi)` on one cell (`inclusive='both'`): NaN fails
any range, as do non-numeric cells. -/
def between (c : Cell) (lo hi : ℚ) : Bool :=
  match c with
  | .num q => decide (lo ≤ q) && decide (q ≤ hi)
  | _ => false

/-- `series >= threshold` on one cell: NaN compares false. -/
def geCell (c : Cell) (th : ℚ) : Bool :=
  match c with
  | .num q => decide (th ≤ q)
  | _ => false

/-- `series.isin(cats)` on one cell, the selected categories being the
strings offered by the multiselect; NaN is in no selection. -/
def isinCell (c : Cell) (cats : List String) : Bool :=
  match c with
  | .str s => cats.contains s
  | _ => false

/-- A token of the modelled regular-expression subset: a literal
character (stored lowercased, `re.IGNORECASE`) or the `.` wildcard. -/
inductive RTok where
  | lit (c : Char)
  | dot
deriving DecidableEq, Repr

/-- The `re` metacharacters.  Patterns using any of them other than `.`
are outside the modelled subset. -/
def reMeta : List Char :=
  ['.', '^', '$', '*', '+', '?', '\x7b', '\x7d', '[', ']', '\\', '|', '(', ')']

/-- Compile one pattern character of the modelled subset. -/
def compileTok (c : Char) : Option RTok :=
  if c == '.' then some RTok.dot
  else if reMeta.contains c then none
  else some (RTok.lit c.toLower)

/-- Compile the pattern characters; `none` when the pattern uses an
unmodelled metacharacter. -/
def compileToks : List Char → Option (List RTok)
  | [] => some []
  | c :: cs =>
      match compileTok c, compileToks cs with
      | some t, some ts => some (t :: ts)
      | _, _ => none

/-- Compile a pattern of the modelled subset (literals and `.`). -/
def compilePat (s : String) : Option (List RTok) :=
  compileToks s.toList

/-- One token against one subject character (`re.IGNORECASE`). -/
def tokMatch (t : RTok) (c : Char) : Bool :=
  match t with
  | .dot => c != '\n'
  | .lit l => l == c.toLower

/-- Whether the compiled pattern matches at the head of the subject. -/
def matchHere (p : List RTok) (s : List Char) : Bool :=
  match p, s with
  | [], _ => true
  | _ :: _, [] => false
  | t :: ts, c :: cs => tokMatch t c && matchHere ts cs

/-- `re.search`: the pattern matches at some position of the subject. -/
def reSearch (p : List RTok) : List Char → Bool
  | [] => matchHere p []
  | s@(_ :: cs) => matchHere p s || reSearch p cs

/-- `Series.str.contains(pat, na=False, case=False)` on one cell: a
regular-expression search (`regex=True` is the pandas default), ignoring
case; a missing (or non-string) cell is `False` via `na=False`. -/
def strContainsCell (c : Cell) (pat : String) : Bool :=
  match c with
  | .str s =>
      match compilePat pat with
      | some p => reSearch p s.toList
      | none => false
  | _ => false

/-- The sidebar filter state: selected categories, the four slider
ranges, the two popularity thresholds, the two search strings. -/
structure FilterSpec where
  selected_cats : List String
  rent_range : ℚ × ℚ
  deposit_range : ℚ × ℚ
  premium_range : ℚ × ℚ
  size_range : ℚ × ℚ
  view_threshold : ℚ
  fav_threshold : ℚ
  subway_search : String
  title_search : String
deriving DecidableEq, Repr

/-- A text conjunct is only added to the mask when its search text is
non-empty (`if subway_search:` — the empty string is falsy). -/
def txtPred (pat : String) (c : Cell) : Bool :=
  if pat = "" then true else strContainsCell c pat

/-- The row mask of src/app.py lines 119-132: conjunction of category
membership, the four inclusive ranges, the two lower bounds, and the two
optional text predicates. -/
def rowMask (sp : FilterSpec) (r : Record) : Bool :=
  (isinCell (effc r.businessMiddleCodeName) sp.selected_cats
    && between (effc r.monthlyRent) sp.rent_range.1 sp.rent_range.2
    && between (effc r.deposit) sp.deposit_range.1 sp.deposit_range.2
    && between (effc r.premium) sp.premium_range.1 sp.premium_range.2
    && between (effc r.size) sp.size_range.1 sp.size_range.2
    && geCell (effc r.viewCount) sp.view_threshold
    && geCell (effc r.favoriteCount) sp.fav_threshold)
  && txtPred sp.subway_search (effc r.nearSubwayStation)
  && txtPred sp.title_search (effc r.title)

/-- `filtered_df = df[mask]`. -/
def filterTable (sp : FilterSpec) (t : List Record) : List Record :=
  t.filter (rowMask sp)

/-- The numeric entries of a column (pandas statistics skip NaN). -/
def numEntries (xs : List Cell) : List ℚ :=
  xs.filterMap fun c =>
    match c with
    | .num q => some q
    | _ => none

/-- `Series.mean()`: NaN-skipping mean; an empty or all-NaN column gives
NaN (`none`). -/
def cmean (xs : List Cell) : Option ℚ :=
  let vs := numEntries xs
  if vs.length = 0 then none else some (vs.sum / vs.length)

/-- Insert into a sorted list of rationals. -/
def insertSorted (q : ℚ) : List ℚ → List ℚ
  | [] => [q]
  | a :: l => if q ≤ a then q :: a :: l else a :: insertSorted q l

/-- Sort a list of rationals. -/
def sortQ (l : List ℚ) : List ℚ := l.foldr insertSorted []

/-- `Series.median()`: NaN-skipping median; even counts average the two
middle values; empty gives NaN (`none`). -/
def cmedian (xs : List Cell) : Option ℚ :=
  let vs := sortQ (numEntries xs)
  let n := vs.length
  if n = 0 then none
  else if n % 2 = 1 then some (vs.getD (n / 2) 0)
  else some ((vs.getD (n / 2 - 1) 0 + vs.getD (n / 2) 0) / 2)

/-- `Series.sum()`: NaN-skipping sum; empty gives 0. -/
def csum (xs : List Cell) : ℚ := (numEntries xs).sum

/-- Truncation toward zero, as Python `int()` on a float. -/
def truncQ (q : ℚ) : Int := q.num.tdiv (q.den : Int)

/-- `display_val` (src/app.py lines 141-145) with the default unit flags:
NaN renders as the `"-"` marker, a number as the truncated integer with
the currency suffix (the thousands grouping of `f"{...:,}"` is not
modelled). -/
def display_val (v : Option ℚ) : String :=
  match v with
  | none => "-"
  | some q => toString (truncQ q) ++ "만원"

/-- The statistics of the KPI section (src/app.py lines 147-161):
count, mean and median monthly rent, means of deposit, premium,
maintenance fee, total monthly cost and size, sums of views and
favorites.  `Option ℚ` is a float that may be NaN. -/
structure KPIStats where
  count : Nat
  mean_rent : Option ℚ
  mean_deposit : Option ℚ
  mean_total : Option ℚ
  mean_size : Option ℚ
  median_rent : Option ℚ
  mean_premium : Option ℚ
  mean_fee : Option ℚ
  sum_views : ℚ
  sum_favs : ℚ
deriving DecidableEq, Repr

/-- What the KPI section renders: the statistics block, or the single
`st.warning` empty-state message. -/
inductive KPIView where
  | stats (s : KPIStats)
  | warn
deriving DecidableEq, Repr

/-- The KPI section (src/app.py lines 136-163): statistics are computed
only when the filtered table is non-empty; otherwise one warning is shown
and no statistic is rendered. -/
def kpiSection (t : List Record) : KPIView :=
  if t.isEmpty = false then
    .stats
      { count := t.length
        mean_rent := cmean (t.map fun r => effc r.monthlyRent)
        mean_deposit := cmean (t.map fun r => effc r.deposit)
        mean_total := cmean (t.map fun r => effc r.total_monthly_cost)
        mean_size := cmean (t.map fun r => effc r.size)
        median_rent := cmedian (t.map fun r => effc r.monthlyRent)
        mean_premium := cmean (t.map fun r => effc r.premium)
        mean_fee := cmean (t.map fun r => effc r.maintenanceFee)
        sum_views := csum (t.map fun r => effc r.viewCount)
        sum_favs := csum (t.map fun r => effc r.favoriteCount) }
  else .warn

/-- Whether `p` is an initial segment of `s`. -/
def initSeg (p s : List Char) : Bool :=
  match p, s with
  | [], _ => true
  | _ :: _, [] => false
  | a :: ps, b :: ss => a == b && initSeg ps ss

/-- Whether `p` occurs contiguously inside `s`. -/
def hasSubstr (p : List Char) : List Char → Bool
  | [] => initSeg p []
  | s@(_ :: cs) => initSeg p s || hasSubstr p cs

/-- Spec-side definition (follows the spec's words, for the C8
refinement): case-insensitive substring containment of the search text in
the subject. -/
def specSubstringCI (pat s : String) : Bool :=
  hasSubstr (pat.toList.map Char.toLower) (s.toList.map Char.toLower)

/-- Spec-side numeric reading of a normalized cell for the C1 formula
`(monthlyRent or 0) + (maintenanceFee or 0)`: a number is itself, a
missing value is 0. -/
def cellQ0 (o : Option Cell) : ℚ :=
  match o with
  | some (.num q) => q
  | _ => 0

/-- Spec-side widening relation for C7: every range may grow on both
sides, every other filter dimension is unchanged. -/
def widensRanges (s t : FilterSpec) : Prop :=
  t.selected_cats = s.selected_cats ∧
  t.rent_range.1 ≤ s.rent_range.1 ∧ s.rent_range.2 ≤ t.rent_range.2 ∧
  t.deposit_range.1 ≤ s.deposit_range.1 ∧ s.deposit_range.2 ≤ t.deposit_range.2 ∧
  t.premium_range.1 ≤ s.premium_range.1 ∧ s.premium_range.2 ≤ t.premium_range.2 ∧
  t.size_range.1 ≤ s.size_range.1 ∧ s.size_range.2 ≤ t.size_range.2 ∧
  t.view_threshold = s.view_threshold ∧ t.fav_threshold = s.fav_threshold ∧
  t.subway_search = s.subway_search ∧ t.title_search = s.title_search

/-- Decidable equality of pipeline results. -/
instance {ε α : Type} [DecidableEq ε] [DecidableEq α] : DecidableEq (Except ε α) := fun a b =>
  match a, b with
  | .ok x, .ok y =>
      if h : x = y then .isTrue (congrArg Except.ok h)
      else .isFalse (fun hc => h (Except.ok.inj hc))
  | .error x, .error y =>
      if h : x = y then .isTrue (congrArg Except.error h)
      else .isFalse (fun hc => h (Except.error.inj hc))
  | .ok _, .error _ => .isFalse (fun hc => Except.noConfusion hc)
  | .error _, .ok _ => .isFalse (fun hc => Except.noConfusion hc)

/-- Whether an effective cell is not a raw string (always true after
numeric coercion). -/
def notStrO (o : Option Cell) : Bool :=
  match o with
  | some (.str _) => false
  | _ => true

/-- The value `df['size'] / 3.3058` stores for one row: the quotient for
a number, NaN otherwise. -/
def divNanO (o : Option Cell) : Cell :=
  match o with
  | some (.num q) => .num (q / pyeongConst)
  | _ => .nan

/-- Step 3 at one row as a total function, valid once `monthlyRent` and
`maintenanceFee` hold no raw strings (always true after coercion). -/
def totalG (r : Record) : Record :=
  { r with total_monthly_cost := some (.num (cellQ0 r.monthlyRent + cellQ0 r.maintenanceFee)) }

/-- Step 3 at one row for `size_pyeong` as a total function. -/
def pyG (r : Record) : Record :=
  { r with size_pyeong := some (divNanO r.size) }

/-- The whole normalizer at one row, on the success path. -/
def normRow (p : Pres) (r : Record) : Record :=
  pyG (totalG (kstRow p.editedDateUtc (coerceRow p r)))

/-- Concrete input row for the C1 witness: a rent of 50, a missing
maintenance fee and a missing size. -/
def c1Row : Record :=
  { monthlyRent := some (.num 50), maintenanceFee := some .nan, size := some .nan }

/-- The normalized form of `c1Row`. -/
def c1Out : Record :=
  { monthlyRent := some (.num 50), maintenanceFee := some .nan, size := some .nan,
    total_monthly_cost := some (.num (50 + 0)), size_pyeong := some .nan }

/-- Concrete deposit filter for the C3 witness: the spec's example
deposit range `(0, 1_000_000)`. -/
def c3Spec : FilterSpec :=
  { selected_cats := [], rent_range := (0, 0), deposit_range := (0, 1000000),
    premium_range := (0, 0), size_range := (0, 0), view_threshold := 0,
    fav_threshold := 0, subway_search := "", title_search := "" }

/-- A row whose deposit is missing (NaN). -/
def c3Row : Record := { deposit := some .nan }

/-- Concrete input row for the C5 witness: size 33.058 square meters. -/
def c5Row : Record :=
  { monthlyRent := some .nan, maintenanceFee := some .nan, size := some (.num (33058 / 1000)) }

/-- The normalized form of `c5Row`. -/
def c5Out : Record :=
  { monthlyRent := some .nan, maintenanceFee := some .nan, size := some (.num (33058 / 1000)),
    total_monthly_cost := some (.num (0 + 0)),
    size_pyeong := some (.num (33058 / 1000 / pyeongConst)) }

/-- Concrete input row for the C6 witness. -/
def c6Row : Record :=
  { monthlyRent := some (.num 7), maintenanceFee := some (.num 3), size := some .nan }

/-- The normalized form of `c6Row`. -/
def c6Out : Record :=
  { monthlyRent := some (.num 7), maintenanceFee := some (.num 3), size := some .nan,
    total_monthly_cost := some (.num (7 + 3)), size_pyeong := some .nan }

/-- A fully populated row matching `c7SpecA`. -/
def c7Row : Record :=
  { businessMiddleCodeName := some (.str "cafe"), monthlyRent := some (.num 1),
    deposit := some (.num 1), premium := some (.num 1), size := some (.num 1),
    viewCount := some (.num 1), favoriteCount := some (.num 1) }

/-- Narrow filter for the C7 witness. -/
def c7SpecA : FilterSpec :=
  { selected_cats := ["cafe"], rent_range := (0, 2), deposit_range := (0, 2),
    premium_range := (0, 2), size_range := (0, 2), view_threshold := 0,
    fav_threshold := 0, subway_search := "", title_search := "" }

/-- `c7SpecA` with every range widened. -/
def c7SpecB : FilterSpec :=
  { selected_cats := ["cafe"], rent_range := (0, 5), deposit_range := (0, 5),
    premium_range := (0, 5), size_range := (0, 5), view_threshold := 0,
    fav_threshold := 0, subway_search := "", title_search := "" }

/-- A row whose title is `"abc"` and which passes every non-text
predicate of `c8Spec`. -/
def c8Row : Record :=
  { title := some (.str "abc"), businessMiddleCodeName := some (.str "cafe"),
    monthlyRent := some (.num 1), deposit := some (.num 1), premium := some (.num 1),
    size := some (.num 1), viewCount := some (.num 1), favoriteCount := some (.num 1) }

/-- Filter searching titles for the pattern `"a.c"`. -/
def c8Spec : FilterSpec :=
  { selected_cats := ["cafe"], rent_range := (0, 2), deposit_range := (0, 2),
    premium_range := (0, 2), size_range := (0, 2), view_threshold := 0,
    fav_threshold := 0, subway_search := "", title_search := "a.c" }

/-- A row with no populated columns at all (every statistic's column is
missing). -/
def c9Row : Record := {}

/-- The statistics the KPI section computes over `[c9Row]`. -/
def c9Stats : KPIStats :=
  { count := 1, mean_rent := none, mean_deposit := none, mean_total := none,
    mean_size := none, median_rent := none, mean_premium := none, mean_fee := none,
    sum_views := 0, sum_favs := 0 }

/-- Popularity filter with both thresholds at 0, for the C10 witness. -/
def c10Spec : FilterSpec :=
  { selected_cats := [], rent_range := (0, 0), deposit_range := (0, 0),
    premium_range := (0, 0), size_range := (0, 0), view_threshold := 0,
    fav_threshold := 0, subway_search := "", title_search := "" }

/-- A row whose view count is missing (NaN). -/
def c10Row : Record := { viewCount := some .nan }

theorem to_numeric_idem (c : Cell) : to_numeric (to_numeric c) = to_numeric c := by
  cases c with
  | num q => rfl
  | nan => rfl
  | str s =>
      simp only [to_numeric]
      cases parseNumStr s <;> simp

theorem to_numeric_not_str (c : Cell) (s : String) : to_numeric c ≠ .str s := by
  cases c with
  | num q => simp [to_numeric]
  | nan => simp [to_numeric]
  | str u =>
      simp only [to_numeric]
      cases parseNumStr u <;> simp

theorem notStrO_to_numeric (c : Cell) : notStrO (some (to_numeric c)) = true := by
  cases hc : to_numeric c with
  | num q => simp [notStrO]
  | nan => simp [notStrO]
  | str s => exact absurd hc (to_numeric_not_str c s)

theorem fillna0_effc (o : Option Cell) (h : notStrO o = true) :
    fillna0 (effc o) = .num (cellQ0 o) := by
  cases o with
  | none => rfl
  | some c =>
      cases c with
      | num q => rfl
      | nan => rfl
      | str s => simp [notStrO] at h

theorem cellDiv_effc (o : Option Cell) (h : notStrO o = true) :
    cellDiv (effc o) pyeongConst = some (divNanO o) := by
  cases o with
  | none => rfl
  | some c =>
      cases c with
      | num q => rfl
      | nan => rfl
      | str s => simp [notStrO] at h

theorem totalRow_eq (r : Record) (h1 : notStrO r.monthlyRent = true)
    (h2 : notStrO r.maintenanceFee = true) : totalRow r = some (totalG r) := by
  simp [totalRow, fillna0_effc _ h1, fillna0_effc _ h2, cellAdd, totalG]

theorem pyRow_eq (r : Record) (h : notStrO r.size = true) : pyRow r = some (pyG r) := by
  simp [pyRow, cellDiv_effc _ h, pyG]

theorem kstRow_eq (b : Bool) (r : Record) :
    kstRow b r =
      { r with edited_kst := if b then some (to_kst (effc r.editedDateUtc)) else r.edited_kst } := by
  cases b <;> simp [kstRow]

theorem mapExc_eq_map {α β : Type} (f : α → Option β) (g : α → β) (e : String) (l : List α)
    (h : ∀ a ∈ l, f a = some (g a)) : mapExc f e l = .ok (l.map g) := by
  induction l with
  | nil => rfl
  | cons a l ih =>
      have ha := h a (List.mem_cons_self a l)
      have ih2 := ih (fun x hx => h x (List.mem_cons_of_mem a hx))
      simp [mapExc, ha, ih2]

theorem preprocess_ok (t : List Record)
    (h1 : (presenceOf t).monthlyRent = true) (h2 : (presenceOf t).maintenanceFee = true)
    (h3 : (presenceOf t).size = true) :
    preprocess t = .ok (t.map (normRow (presenceOf t))) := by
  have hmr : ∀ a ∈ (t.map (coerceRow (presenceOf t))).map (kstRow (presenceOf t).editedDateUtc),
      totalRow a = some (totalG a) := by
    intro a ha
    rw [List.mem_map] at ha
    obtain ⟨b, hb, rfl⟩ := ha
    rw [List.mem_map] at hb
    obtain ⟨r0, hr0, rfl⟩ := hb
    refine totalRow_eq _ ?_ ?_
    · rw [kstRow_eq]
      simp [coerceRow, coerceField, h1, notStrO_to_numeric]
    · rw [kstRow_eq]
      simp [coerceRow, coerceField, h2, notStrO_to_numeric]
  have hsz : ∀ a ∈ ((t.map (coerceRow (presenceOf t))).map
      (kstRow (presenceOf t).editedDateUtc)).map totalG,
      pyRow a = some (pyG a) := by
    intro a ha
    rw [List.mem_map] at ha
    obtain ⟨b, hb, rfl⟩ := ha
    rw [List.mem_map] at hb
    obtain ⟨b2, hb2, rfl⟩ := hb
    rw [List.mem_map] at hb2
    obtain ⟨r0, hr0, rfl⟩ := hb2
    refine pyRow_eq _ ?_
    simp only [totalG]
    rw [kstRow_eq]
    simp [coerceRow, coerceField, h3, notStrO_to_numeric]
  simp only [preprocess]
  rw [if_neg (show ¬((presenceOf t).monthlyRent = false) by simp [h1])]
  rw [if_neg (show ¬((presenceOf t).maintenanceFee = false) by simp [h2])]
  rw [mapExc_eq_map totalRow totalG _ _ hmr]
  dsimp only
  rw [if_neg (show ¬((presenceOf t).size = false) by simp [h3])]
  rw [mapExc_eq_map pyRow pyG _ _ hsz]
  simp [List.map_map, normRow, Function.comp]

theorem preprocess_ok_flags (t : List Record) (u : List Record) (h : preprocess t = .ok u) :
    (presenceOf t).monthlyRent = true ∧ (presenceOf t).maintenanceFee = true ∧
      (presenceOf t).size = true := by
  by_cases h1 : (presenceOf t).monthlyRent = true
  · by_cases h2 : (presenceOf t).maintenanceFee = true
    · by_cases h3 : (presenceOf t).size = true
      · exact ⟨h1, h2, h3⟩
      · exfalso
        rw [Bool.not_eq_true] at h3
        simp only [preprocess] at h
        rw [if_neg (show ¬((presenceOf t).monthlyRent = false) by simp [h1])] at h
        rw [if_neg (show ¬((presenceOf t).maintenanceFee = false) by simp [h2])] at h
        split at h
        · exact Except.noConfusion h
        · rw [if_pos h3] at h
          exact Except.noConfusion h
    · exfalso
      rw [Bool.not_eq_true] at h2
      simp only [preprocess] at h
      rw [if_neg (show ¬((presenceOf t).monthlyRent = false) by simp [h1])] at h
      rw [if_pos h2] at h
      exact Except.noConfusion h
  · exfalso
    rw [Bool.not_eq_true] at h1
    simp only [preprocess] at h
    rw [if_pos h1] at h
    exact Except.noConfusion h

theorem preprocess_ok_eq (t : List Record) (u : List Record) (h : preprocess t = .ok u) :
    u = t.map (normRow (presenceOf t)) := by
  obtain ⟨h1, h2, h3⟩ := preprocess_ok_flags t u h
  have he := preprocess_ok t h1 h2 h3
  rw [he] at h
  exact (Except.ok.inj h).symm

/-- C1 counterexample: an input whose records carry no `monthlyRent` key at
all makes line 68 (`df['monthlyRent']`) raise `KeyError` — normalization
does not tolerate a required source field that is absent from the whole
input, contradicting the claim's never-raises clause. -/
theorem c1_absent_column_raises :
    preprocess [{ title := some (.str "listing") }] = .error "KeyError: monthlyRent" := rfl

/-- C1 (amended): on any input whose normalization completes, every row of
the result satisfies `total_monthly_cost = (monthlyRent or 0) +
(maintenanceFee or 0)` — a per-record missing value is treated as 0; but
when `monthlyRent`, `maintenanceFee` or `size` is absent from every input
record, normalization raises `KeyError` instead of tolerating it. -/
theorem total_monthly_cost_formula (t u : List Record) (h : preprocess t = .ok u) :
    ∀ r ∈ u, r.total_monthly_cost =
      some (.num (cellQ0 r.monthlyRent + cellQ0 r.maintenanceFee)) := by
  intro r hr
  rw [preprocess_ok_eq t u h] at hr
  rw [List.mem_map] at hr
  obtain ⟨r0, hr0, rfl⟩ := hr
  simp only [normRow, pyG, totalG]

/-- C1 witness: the formula evaluated on a concrete normalized row with a
rent of 50 and a missing maintenance fee. -/
theorem total_monthly_cost_formula_witness :
    c1Out.total_monthly_cost =
      some (.num (cellQ0 c1Out.monthlyRent + cellQ0 c1Out.maintenanceFee)) :=
  total_monthly_cost_formula [c1Row] [c1Out] rfl c1Out (List.mem_singleton.mpr rfl)

/-- C2 (code bug evaluation): a missing source file does yield the
explicitly-empty table, but a source that parses to zero rows makes
normalization raise `KeyError: monthlyRent` (line 68 reads a column of the
empty DataFrame) instead of returning the empty table. -/
theorem missing_or_empty_source_behavior :
    load_and_preprocess_data [] "sample_data.json" = .ok []
  ∧ load_and_preprocess_data [("sample_data.json", .many [])] "sample_data.json" =
      .error "KeyError: monthlyRent" := by
  exact ⟨rfl, rfl⟩

/-- C3: the four range predicates are inclusive `[min, max]` tests, a NaN
cell fails every range, and a row whose filtered numeric value is missing
is excluded from the filter result for every choice of bounds. -/
theorem range_predicates_inclusive_missing_excluded :
    (∀ lo hi q : ℚ, between (.num q) lo hi = (decide (lo ≤ q) && decide (q ≤ hi)))
  ∧ (∀ lo hi : ℚ, between .nan lo hi = false)
  ∧ (∀ (sp : FilterSpec) (t : List Record) (r : Record),
      effc r.monthlyRent = .nan ∨ effc r.deposit = .nan ∨ effc r.premium = .nan ∨
        effc r.size = .nan →
      r ∉ filterTable sp t) := by
  refine ⟨fun lo hi q => rfl, fun lo hi => rfl, ?_⟩
  intro sp t r hmiss hmem
  rw [filterTable, List.mem_filter] at hmem
  have hm := hmem.2
  rcases hmiss with h | h | h | h <;> simp [rowMask, h, between] at hm

/-- C3 witness: the spec's concrete example — the deposit range
`(0, 1000000)` excludes a row whose deposit is missing. -/
theorem range_missing_excluded_witness : c3Row ∉ filterTable c3Spec [c3Row] :=
  range_predicates_inclusive_missing_excluded.2.2 c3Spec [c3Row] c3Row (Or.inr (Or.inl rfl))

/-- C4: `to_kst` maps `"2024-01-01T00:00:00Z"` to `"2024-01-01 09:00:00"`
(+9 hours, `YYYY-MM-DD HH:MM:SS`), passes non-strings through unchanged,
and passes unparseable strings through unchanged. -/
theorem to_kst_conversion :
    to_kst (.str "2024-01-01T00:00:00Z") = .str "2024-01-01 09:00:00"
  ∧ (∀ c : Cell, (∀ s : String, c ≠ .str s) → to_kst c = c)
  ∧ (∀ s : String, parseISO (String.mk (replaceZ s.toList)) = none →
      to_kst (.str s) = .str s) := by
  refine ⟨by decide, ?_, ?_⟩
  · intro c hc
    cases c with
    | num q => rfl
    | nan => rfl
    | str s => exact absurd rfl (hc s)
  · intro s hs
    simp only [to_kst, String.toList] at hs ⊢
    simp [hs]

/-- C4 witness: pass-through evaluated on a non-text cell and on an
unparseable string. -/
theorem to_kst_conversion_witness :
    to_kst (.num 5) = .num 5 ∧ to_kst (.str "hello") = .str "hello" :=
  ⟨to_kst_conversion.2.1 (.num 5) (fun s h => Cell.noConfusion h),
   to_kst_conversion.2.2 "hello" (by decide)⟩

/-- C5: on any input whose normalization completes, every row satisfies
`size_pyeong = size / 3.3058` when `size` is a number, and `size_pyeong`
is NaN when `size` is NaN. -/
theorem size_pyeong_formula (t u : List Record) (h : preprocess t = .ok u) :
    ∀ r ∈ u, (∀ q : ℚ, r.size = some (.num q) → r.size_pyeong = some (.num (q / pyeongConst)))
      ∧ (r.size = some .nan → r.size_pyeong = some .nan) := by
  intro r hr
  rw [preprocess_ok_eq t u h] at hr
  rw [List.mem_map] at hr
  obtain ⟨r0, hr0, rfl⟩ := hr
  constructor
  · intro q hq
    simp only [normRow, pyG, totalG] at hq ⊢
    rw [hq]
    simp [divNanO]
  · intro hq
    simp only [normRow, pyG, totalG] at hq ⊢
    rw [hq]
    simp [divNanO]

/-- C5 witness: a size of 33.058 square meters yields exactly 10 pyeong. -/
theorem size_pyeong_formula_witness : c5Out.size_pyeong = some (.num 10) := by
  have h := (size_pyeong_formula [c5Row] [c5Out] rfl c5Out (List.mem_singleton.mpr rfl)).1
      (33058 / 1000) rfl
  rw [h]
  norm_num [pyeongConst]

/-- C10: a NaN cell fails the `>=` popularity predicates for every
threshold (0 included), so a row whose `viewCount` or `favoriteCount` is
missing is excluded from the filter result. -/
theorem popularity_thresholds_missing_excluded :
    (∀ th : ℚ, geCell .nan th = false)
  ∧ (∀ (sp : FilterSpec) (t : List Record) (r : Record),
      effc r.viewCount = .nan ∨ effc r.favoriteCount = .nan → r ∉ filterTable sp t) := by
  refine ⟨fun th => rfl, ?_⟩
  intro sp t r hmiss hmem
  rw [filterTable, List.mem_filter] at hmem
  have hm := hmem.2
  rcases hmiss with h | h <;> simp [rowMask, h, geCell] at hm

/-- C10 witness: with both thresholds at 0, a row whose view count is
missing is still excluded. -/
theorem popularity_thresholds_witness : c10Row ∉ filterTable c10Spec [c10Row] :=
  popularity_thresholds_missing_excluded.2 c10Spec [c10Row] c10Row (Or.inl rfl)

theorem between_mono (c : Cell) (lo hi lo2 hi2 : ℚ) (hl : lo2 ≤ lo) (hh : hi ≤ hi2)
    (h : between c lo hi = true) : between c lo2 hi2 = true := by
  cases c with
  | num q =>
      simp only [between, Bool.and_eq_true, decide_eq_true_eq] at h ⊢
      exact ⟨le_trans hl h.1, le_trans h.2 hh⟩
  | str s => simp [between] at h
  | nan => simp [between] at h

/-- C7: widening the bounds of the range predicates (all other filter
dimensions unchanged) never removes a row from the filter result. -/
theorem filter_monotone_in_ranges (s t : FilterSpec) (h : widensRanges s t)
    (l : List Record) : ∀ r ∈ filterTable s l, r ∈ filterTable t l := by
  intro r hr
  rw [filterTable, List.mem_filter] at hr ⊢
  refine ⟨hr.1, ?_⟩
  have hm := hr.2
  obtain ⟨hc, h1a, h1b, h2a, h2b, h3a, h3b, h4a, h4b, hv, hf, hsub, htit⟩ := h
  simp only [rowMask, Bool.and_eq_true] at hm ⊢
  obtain ⟨⟨⟨⟨⟨⟨⟨⟨hA, hB⟩, hC⟩, hD⟩, hE⟩, hF⟩, hG⟩, hT1⟩, hT2⟩ := hm
  refine ⟨⟨⟨⟨⟨⟨⟨⟨?_, ?_⟩, ?_⟩, ?_⟩, ?_⟩, ?_⟩, ?_⟩, ?_⟩, ?_⟩
  · rw [hc]; exact hA
  · exact between_mono _ _ _ _ _ h1a h1b hB
  · exact between_mono _ _ _ _ _ h2a h2b hC
  · exact between_mono _ _ _ _ _ h3a h3b hD
  · exact between_mono _ _ _ _ _ h4a h4b hE
  · rw [hv]; exact hF
  · rw [hf]; exact hG
  · rw [hsub]; exact hT1
  · rw [htit]; exact hT2

/-- C7 witness: a matching row stays matched when every range widens from
`[0, 2]` to `[0, 5]`. -/
theorem filter_monotone_witness : c7Row ∈ filterTable c7SpecB [c7Row] :=
  filter_monotone_in_ranges c7SpecA c7SpecB
    (by refine ⟨?_, ?_, ?_, ?_, ?_, ?_, ?_, ?_, ?_, ?_, ?_, ?_, ?_⟩ <;> decide)
    [c7Row] c7Row (by decide)

/-- C8 counterexample: `str.contains` runs with `regex=True`, so the
search text `"a.c"` matches the title `"abc"` (the `.` is a wildcard) and
the row is kept, although `"a.c"` is not a substring of `"abc"` — the
text predicates are not substring-containment tests. -/
theorem text_search_regex_counterexample :
    filterTable c8Spec [c8Row] = [c8Row] ∧ specSubstringCI "a.c" "abc" = false := by
  exact ⟨by decide, by decide⟩

theorem compileToks_lit (l : List Char) (h : ∀ c ∈ l, c ∉ reMeta) :
    compileToks l = some (l.map fun c => RTok.lit c.toLower) := by
  induction l with
  | nil => rfl
  | cons c cs ih =>
      have hc := h c (List.mem_cons_self c cs)
      have hdot : (c == '.') = false := by
        cases hcc : c == '.' with
        | false => rfl
        | true =>
            rw [beq_iff_eq] at hcc
            subst hcc
            simp [reMeta] at hc
      simp [compileToks, compileTok, hdot, hc,
        ih (fun x hx => h x (List.mem_cons_of_mem c hx))]

theorem matchHere_lits (p : List Char) : ∀ s : List Char,
    matchHere (p.map fun c => RTok.lit c.toLower) s
      = initSeg (p.map Char.toLower) (s.map Char.toLower) := by
  induction p with
  | nil => intro s; rfl
  | cons a ps ih =>
      intro s
      cases s with
      | nil => rfl
      | cons b ss => simp [matchHere, initSeg, tokMatch, ih]

theorem reSearch_lits (p : List Char) : ∀ s : List Char,
    reSearch (p.map fun c => RTok.lit c.toLower) s
      = hasSubstr (p.map Char.toLower) (s.map Char.toLower) := by
  intro s
  induction s with
  | nil => simp [reSearch, hasSubstr, matchHere_lits p []]
  | cons b ss ih => simp [reSearch, hasSubstr, matchHere_lits, ih]

/-- C8 (amended): the two text predicates are case-insensitive
regular-expression searches; on search text free of regex metacharacters
this coincides with case-insensitive substring containment; an empty
search text skips the predicate entirely; a missing text field fails the
predicate exactly when the search text is non-empty. -/
theorem text_predicates_semantics :
    (∀ pat s : String, (∀ c ∈ pat.toList, c ∉ reMeta) →
        strContainsCell (.str s) pat = specSubstringCI pat s)
  ∧ (∀ c : Cell, txtPred "" c = true)
  ∧ (∀ pat : String, pat ≠ "" → txtPred pat .nan = false) := by
  refine ⟨?_, ?_, ?_⟩
  · intro pat s h
    simp only [strContainsCell, compilePat]
    rw [compileToks_lit pat.toList h]
    simp only [specSubstringCI]
    exact reSearch_lits pat.toList s.toList
  · intro c
    simp [txtPred]
  · intro pat h
    simp [txtPred, h, strContainsCell]

/-- C8 witness: the semantics evaluated on a metacharacter-free search
(case-insensitive substring) and on a missing text field. -/
theorem text_predicates_semantics_witness :
    strContainsCell (.str "Gangnam Station") "gangnam" = specSubstringCI "gangnam" "Gangnam Station"
  ∧ txtPred "x" .nan = false :=
  ⟨text_predicates_semantics.1 "gangnam" "Gangnam Station" (by decide),
   text_predicates_semantics.2.2 "x" (by decide)⟩

/-- C9 counterexample: on the empty filtered table the KPI section takes
the `st.warning` branch — a single empty-state message — and renders no
per-statistic marker at all, so the statistics are not "reported as an
explicit no-value marker" as claimed (they are simply not reported). -/
theorem kpi_empty_shows_warning : kpiSection [] = KPIView.warn := rfl

/-- C9 (amended): on an empty filtered table the KPI section computes no
statistic and shows the single empty-state warning (so nothing is ever
rendered as NaN or zero and nothing raises); statistics are computed
exactly on non-empty tables, and there a statistic whose column is
entirely missing is rendered as the `"-"` marker by `display_val`. -/
theorem kpi_empty_warning_and_dash_marker :
    kpiSection [] = KPIView.warn
  ∧ display_val none = "-"
  ∧ (∀ t : List Record, t ≠ [] → ∃ s, kpiSection t = .stats s)
  ∧ (∀ (t : List Record) (s : KPIStats), kpiSection t = .stats s →
      (∀ r ∈ t, effc r.monthlyRent = .nan) → display_val s.mean_rent = "-") := by
  refine ⟨rfl, rfl, ?_, ?_⟩
  · intro t ht
    cases t with
    | nil => exact absurd rfl ht
    | cons a l => exact ⟨_, rfl⟩
  · intro t s hs hnan
    cases t with
    | nil => exact absurd hs (by simp [kpiSection])
    | cons a l =>
        have hse : s = _ := (KPIView.stats.inj hs).symm
        subst hse
        have hnil : numEntries ((a :: l).map fun r => effc r.monthlyRent) = [] := by
          simp only [numEntries]
          rw [List.filterMap_eq_nil_iff]
          intro c hc
          rw [List.mem_map] at hc
          obtain ⟨r, hr, rfl⟩ := hc
          rw [hnan r hr]
        show display_val (cmean ((a :: l).map fun r => effc r.monthlyRent)) = "-"
        simp only [cmean]
        rw [hnil]
        rfl

/-- C9 witness: the non-empty branch and the `"-"` marker evaluated on a
one-row table whose rent column is entirely missing. -/
theorem kpi_dash_marker_witness : display_val c9Stats.mean_rent = "-" := by
  refine kpi_empty_warning_and_dash_marker.2.2.2 [c9Row] c9Stats rfl ?_
  intro r hr
  rw [List.mem_singleton] at hr
  subst hr
  rfl

theorem coerceField_idem (b : Bool) (o : Option Cell) :
    coerceField b (coerceField b o) = coerceField b o := by
  cases b with
  | false => rfl
  | true => simp [coerceField, effc, to_numeric_idem]

theorem normRow_idem (p : Pres) (r : Record) : normRow p (normRow p r) = normRow p r := by
  cases hpe : p.editedDateUtc with
  | false =>
      apply Record.ext <;>
        simp [normRow, pyG, totalG, kstRow_eq, coerceRow, hpe, coerceField_idem]
  | true =>
      apply Record.ext <;>
        simp [normRow, pyG, totalG, kstRow_eq, coerceRow, hpe, coerceField_idem]

theorem colP_map_id (t : List Record) (p : Pres) (g : Record → Option Cell)
    (hcomm : ∀ r, g (normRow p r) = g r) :
    colP (t.map (normRow p)) g = colP t g := by
  rw [colP, colP, List.any_map]
  simp [Function.comp_def, hcomm]

theorem colP_map_coerce (t : List Record) (p : Pres) (g : Record → Option Cell)
    (hcomm : ∀ r, g (normRow p r) = coerceField (colP t g) (g r)) (ht : t ≠ []) :
    colP (t.map (normRow p)) g = colP t g := by
  rw [colP, List.any_map]
  cases hcp : colP t g with
  | false =>
      have hcp2 := hcp
      rw [colP] at hcp2
      have hid : ∀ r, g (normRow p r) = g r := by
        intro r
        rw [hcomm r, hcp]
        rfl
      simp only [Function.comp_def, hid]
      exact hcp2
  | true =>
      have hsome : ∀ r, (g (normRow p r)).isSome = true := by
        intro r
        rw [hcomm r, hcp]
        rfl
      obtain ⟨a, l, rfl⟩ := List.exists_cons_of_ne_nil ht
      simp [Function.comp_def, hsome]

theorem presenceOf_normRow (t : List Record) (ht : t ≠ []) :
    presenceOf (t.map (normRow (presenceOf t))) = presenceOf t := by
  apply Pres.ext
  · show colP (t.map (normRow (presenceOf t))) (·.monthlyRent) = colP t (·.monthlyRent)
    refine colP_map_coerce t (presenceOf t) _ (fun r => ?_) ht
    simp [normRow, pyG, totalG, kstRow_eq, coerceRow, presenceOf]
  · show colP (t.map (normRow (presenceOf t))) (·.deposit) = colP t (·.deposit)
    refine colP_map_coerce t (presenceOf t) _ (fun r => ?_) ht
    simp [normRow, pyG, totalG, kstRow_eq, coerceRow, presenceOf]
  · show colP (t.map (normRow (presenceOf t))) (·.premium) = colP t (·.premium)
    refine colP_map_coerce t (presenceOf t) _ (fun r => ?_) ht
    simp [normRow, pyG, totalG, kstRow_eq, coerceRow, presenceOf]
  · show colP (t.map (normRow (presenceOf t))) (·.maintenanceFee) = colP t (·.maintenanceFee)
    refine colP_map_coerce t (presenceOf t) _ (fun r => ?_) ht
    simp [normRow, pyG, totalG, kstRow_eq, coerceRow, presenceOf]
  · show colP (t.map (normRow (presenceOf t))) (·.size) = colP t (·.size)
    refine colP_map_coerce t (presenceOf t) _ (fun r => ?_) ht
    simp [normRow, pyG, totalG, kstRow_eq, coerceRow, presenceOf]
  · show colP (t.map (normRow (presenceOf t))) (·.floor) = colP t (·.floor)
    refine colP_map_coerce t (presenceOf t) _ (fun r => ?_) ht
    simp [normRow, pyG, totalG, kstRow_eq, coerceRow, presenceOf]
  · show colP (t.map (normRow (presenceOf t))) (·.groundFloor) = colP t (·.groundFloor)
    refine colP_map_coerce t (presenceOf t) _ (fun r => ?_) ht
    simp [normRow, pyG, totalG, kstRow_eq, coerceRow, presenceOf]
  · show colP (t.map (normRow (presenceOf t))) (·.viewCount) = colP t (·.viewCount)
    refine colP_map_coerce t (presenceOf t) _ (fun r => ?_) ht
    simp [normRow, pyG, totalG, kstRow_eq, coerceRow, presenceOf]
  · show colP (t.map (normRow (presenceOf t))) (·.favoriteCount) = colP t (·.favoriteCount)
    refine colP_map_coerce t (presenceOf t) _ (fun r => ?_) ht
    simp [normRow, pyG, totalG, kstRow_eq, coerceRow, presenceOf]
  · show colP (t.map (normRow (presenceOf t))) (·.editedDateUtc) = colP t (·.editedDateUtc)
    refine colP_map_id t (presenceOf t) _ (fun r => ?_)
    simp [normRow, pyG, totalG, kstRow_eq, coerceRow]

/-- C6: normalization is idempotent — re-running the normalizer on an
already-normalized table returns that table unchanged (same coerced
numeric columns, same `edited_kst`, `total_monthly_cost`, `size_pyeong`,
re-derived from the same unchanged sources).  Determinism is built into
the model: the normalizer is a pure function. -/
theorem preprocess_idempotent (t u : List Record) (h : preprocess t = .ok u) :
    preprocess u = .ok u := by
  obtain ⟨h1, h2, h3⟩ := preprocess_ok_flags t u h
  have hu := preprocess_ok_eq t u h
  have ht : t ≠ [] := by
    intro he
    rw [he] at h1
    simp [presenceOf, colP] at h1
  have hp : presenceOf u = presenceOf t := by
    rw [hu]
    exact presenceOf_normRow t ht
  have h1u : (presenceOf u).monthlyRent = true := by rw [hp]; exact h1
  have h2u : (presenceOf u).maintenanceFee = true := by rw [hp]; exact h2
  have h3u : (presenceOf u).size = true := by rw [hp]; exact h3
  have hok := preprocess_ok u h1u h2u h3u
  rw [hok, hp, hu, List.map_map]
  simp [Function.comp, normRow_idem]

/-- C6 witness: idempotence evaluated on the concrete normalized table
`[c6Out]`. -/
theorem preprocess_idempotent_witness : preprocess [c6Out] = .ok [c6Out] :=
  preprocess_idempotent [c6Row] [c6Out] rfl
